import Mathlib

/-!
# Verification of the FTX websocket client's feed replication engine

Shallow embedding of `src/websocket/client.py` (`FtxWebsocketClient`).

Modelling conventions:
* JSON numbers (prices, sizes) are modelled as `ℚ`.  The Python code never
  performs float arithmetic on them: it only stores them, compares them for
  equality (dict keys), orders them (`sorted` by price), negates them
  (the bids sort key) and renders them in decimal text — all of which `ℚ`
  models exactly for the decimal literals that occur on the wire.
* Python dicts are association lists with insert-or-replace update; a
  `defaultdict` access that creates the entry is modelled by `agetd`, which
  returns the (possibly extended) map.
* `deque(maxlen=10000)` is a list whose append drops the oldest element at
  capacity.
* Messages sent on the socket (`send_json`) are accumulated in the `sent`
  field of the state, in order.
* Python's `sorted` and `List.insertionSort` are both stable sorts, hence
  produce identical output for the same key order.
* Statements such as `message['type']` that raise `KeyError` on a missing
  key are modelled in `Except String`; the error string records the Python
  exception.  Handlers that cannot raise are total functions.
-/

/-- CRC-32 (the `zlib.crc32` polynomial, reflected form): one bit step. -/
def crc32Step (c : Nat) : Nat :=
  if c % 2 = 1 then (c / 2) ^^^ 0xEDB88320 else c / 2

/-- CRC-32: absorb one byte. -/
def crc32Byte (c b : Nat) : Nat :=
  crc32Step^[8] (c ^^^ b)

/-- CRC-32 of a byte sequence, as `zlib.crc32` computes it
(initial value `0xFFFFFFFF`, final xor `0xFFFFFFFF`). -/
def crc32 (bytes : List Nat) : Nat :=
  (bytes.foldl crc32Byte 0xFFFFFFFF) ^^^ 0xFFFFFFFF

/-- Bytes of a string.  All checksum strings are ASCII, where UTF-8 bytes
coincide with code points. -/
def strBytes (s : String) : List Nat :=
  s.toList.map Char.toNat

/-- `zlib.crc32(s.encode())` for an ASCII string `s`. -/
def crc32OfString (s : String) : Nat :=
  crc32 (strBytes s)

/-- Decimal digits of the fraction `r / d` (`0 < r < d`), by long
division, with fuel bounding the number of digits (Python float repr
emits at most 17 significant digits; every value in this development is a
finite decimal). -/
def fracDigits : Nat → Nat → Nat → String
  | 0, _, _ => ""
  | fuel + 1, r, d =>
    if r = 0 then ""
    else toString (r * 10 / d) ++ fracDigits fuel (r * 10 % d) d

/-- Python `f-string` rendering `f'{float(q)}'` of a finite-decimal
rational: optional sign, integer part, a dot, then the fractional digits
(`"0"` when the value is integral, as Python prints `100.0` for
`float(100)`). -/
def pyFloatRepr (q : ℚ) : String :=
  let n := q.num.natAbs
  let d := q.den
  (if q.num < 0 then "-" else "") ++
    toString (n / d) ++ "." ++ (if n % d = 0 then "0" else fracDigits 17 (n % d) d)

/-- Python `':'.join(l)`. -/
def joinColon : List String → String
  | [] => ""
  | [s] => s
  | s :: rest => s ++ ":" ++ joinColon rest

/-- A subscription dict `{'channel': …, 'market'?: …}`; equality is
structural, as for Python dicts. -/
structure Subscription where
  channel : String
  market : Option String
deriving DecidableEq, Repr

/-- A message sent on the websocket by the client. -/
inductive WireMsg where
  | subscribe (s : Subscription)
  | unsubscribe (s : Subscription)
  | login
deriving DecidableEq, Repr

/-- First-match association-list lookup (Python dict read). -/
def alookup {α β : Type} [DecidableEq α] (k : α) : List (α × β) → Option β
  | [] => none
  | (a, b) :: l => if a = k then some b else alookup k l

/-- Insert-or-replace (Python dict write: existing keys keep their
position, new keys are appended). -/
def aset {α β : Type} [DecidableEq α] (k : α) (v : β) : List (α × β) → List (α × β)
  | [] => [(k, v)]
  | (a, b) :: l => if a = k then (k, v) :: l else (a, b) :: aset k v l

/-- `defaultdict.__getitem__`: return the entry, creating it with the
default value when absent.  Returns the value and the updated map. -/
def agetd {α β : Type} [DecidableEq α] (d : β) (m : List (α × β)) (k : α) : β × List (α × β) :=
  match alookup k m with
  | some v => (v, m)
  | none => (d, m ++ [(k, d)])

/-- One side of an order book: price → size association list
(`DefaultDict[float, float]`). -/
abbrev Side := List (ℚ × ℚ)

/-- `dict.update({price: size for price, size in delta})`: fold
insert-or-replace over the delta pairs (duplicate prices: last wins,
exactly as the dict comprehension collapses them). -/
def dictUpdate (m : Side) (delta : List (ℚ × ℚ)) : Side :=
  delta.foldl (fun acc pr => aset pr.1 pr.2 acc) m

/-- A market's order book: the fixed two-sided dict
`{side: defaultdict(float) for side in {'bids', 'asks'}}`. -/
structure Book where
  bids : Side
  asks : Side
deriving DecidableEq, Repr

/-- The freshly created book. -/
def Book.empty : Book := ⟨[], []⟩

/-- A channel payload (`message['data']`).  Order-book payloads are
structured; the other channels' payloads are opaque records carrying at
most an `id` (only read by the orders handler). -/
inductive MsgData where
  | book (action : String) (bids asks : List (ℚ × ℚ)) (checksum : Nat)
  | record (id : Option Int) (payload : String)
deriving DecidableEq, Repr

/-- A decoded inbound JSON frame: each dict key the dispatch code reads is
an `Option`, `none` meaning the key is absent (reading it raises
`KeyError`). -/
structure Message where
  type? : Option String
  code? : Option Int
  channel? : Option String
  market? : Option String
  data? : Option MsgData
deriving DecidableEq, Repr

/-- The replicated client state of `FtxWebsocketClient`, plus the trace of
sent wire messages. -/
structure WsState where
  subscriptions : List Subscription
  orderbooks : List (String × Book)
  trades : List (String × List MsgData)
  tickers : List (String × MsgData)
  fills : List MsgData
  orders : List (Int × MsgData)
  loggedIn : Bool
  sent : List WireMsg
deriving DecidableEq, Repr

/-- The state right after `__init__`. -/
def initState : WsState :=
  { subscriptions := [], orderbooks := [], trades := [], tickers := []
    fills := [], orders := [], loggedIn := false, sent := [] }

/-- `_reset_orderbook`: rebinds `self._orderbooks` to a fresh empty
defaultdict — every market's book is discarded. -/
def resetOrderbook (st : WsState) : WsState :=
  { st with orderbooks := [] }

/-- `_reset_data`: clears subscriptions, orders, tickers, the order books
and the logged-in flag.  (`_trades` and `_fills` are created in `__init__`
only and survive.) -/
def resetData (st : WsState) : WsState :=
  { st with subscriptions := [], orders := [], tickers := []
            orderbooks := [], loggedIn := false }

/-- Modelled from the spec: `WebsocketManager.reconnect` (the
`websocket_manager` module is not under `src/`).  Per §4.5 the supervisor,
on re-entering the connected state, "replays every entry in
SubscriptionRegistry by re-sending its subscribe wire message"; transport
mechanics are out of scope. -/
def superReconnect (st : WsState) : WsState :=
  { st with sent := st.sent ++ st.subscriptions.map WireMsg.subscribe }

/-- `FtxWebsocketClient.reconnect`: `self._reset_data()` followed by
`super().reconnect()`. -/
def reconnect (st : WsState) : WsState :=
  superReconnect (resetData st)

/-- `_subscribe`: send the subscribe frame, then append to the list. -/
def subscribeOp (st : WsState) (s : Subscription) : WsState :=
  { st with sent := st.sent ++ [WireMsg.subscribe s]
            subscriptions := st.subscriptions ++ [s] }

/-- `_unsubscribe`: send the unsubscribe frame, then `list.remove` (first
occurrence).  In the source this is only reached right after
`get_orderbook` has ensured the entry is present, so the `ValueError` of
`remove` on a missing entry cannot fire; `List.erase` is a no-op there. -/
def unsubscribeOp (st : WsState) (s : Subscription) : WsState :=
  { st with sent := st.sent ++ [WireMsg.unsubscribe s]
            subscriptions := st.subscriptions.erase s }

/-- The membership check `if subscription not in self._subscriptions:
self._subscribe(subscription)` shared by all query methods. -/
def ensureSubscribed (st : WsState) (s : Subscription) : WsState :=
  if s ∈ st.subscriptions then st else subscribeOp st s

/-- Sort order of the bids snapshot: Python sorts by key
`price * (-1)`, i.e. descending price. -/
def bidLE (a b : ℚ × ℚ) : Prop := b.1 ≤ a.1

/-- Sort order of the asks snapshot: ascending price. -/
def askLE (a b : ℚ × ℚ) : Prop := a.1 ≤ b.1

instance : DecidableRel bidLE := fun a b => (inferInstance : Decidable (b.1 ≤ a.1))

instance : DecidableRel askLE := fun a b => (inferInstance : Decidable (a.1 ≤ b.1))

instance : IsTotal (ℚ × ℚ) bidLE := ⟨fun a b => le_total b.1 a.1⟩

instance : IsTotal (ℚ × ℚ) askLE := ⟨fun a b => le_total a.1 b.1⟩

instance : IsTrans (ℚ × ℚ) bidLE := ⟨fun _ _ _ h h' => le_trans h' h⟩

instance : IsTrans (ℚ × ℚ) askLE := ⟨fun _ _ _ h h' => le_trans h h'⟩

/-- Drop the zero-size levels of a side: the comprehension's
`if quantity` filter (`0.0` is the only falsy float size). -/
def pruneSide (s : Side) : Side :=
  s.filter fun p => decide (p.2 ≠ 0)

/-- The bids list of a snapshot: zero sizes pruned, sorted descending. -/
def snapshotBids (s : Side) : Side :=
  (pruneSide s).insertionSort bidLE

/-- The asks list of a snapshot: zero sizes pruned, sorted ascending. -/
def snapshotAsks (s : Side) : Side :=
  (pruneSide s).insertionSort askLE

/-- `get_orderbook`: lazily subscribe, create the market's (empty) book
entry through the defaultdict access, and return the sorted, pruned
snapshot.  Returns the updated state and the snapshot. -/
def getOrderbook (st : WsState) (market : String) : WsState × Book :=
  let st1 := ensureSubscribed st ⟨"orderbook", some market⟩
  let res := agetd Book.empty st1.orderbooks market
  ({ st1 with orderbooks := res.2 },
   ⟨snapshotBids res.1.bids, snapshotAsks res.1.asks⟩)

/-- `get_trades`: lazily subscribe, then read (and thereby create) the
market's trades deque. -/
def getTrades (st : WsState) (market : String) : WsState × List MsgData :=
  let st1 := ensureSubscribed st ⟨"trades", some market⟩
  let res := agetd ([] : List MsgData) st1.trades market
  ({ st1 with trades := res.2 }, res.1)

/-- Render one level as `f'{float(price)}:{float(size)}'`. -/
def levelStr (p : ℚ × ℚ) : String :=
  pyFloatRepr p.1 ++ ":" ++ pyFloatRepr p.2

/-- `itertools.zip_longest` (fill value `None`). -/
def zipPad {α : Type} : List α → List α → List (Option α × Option α)
  | [], bs => bs.map fun b => (none, some b)
  | a :: as', [] => (some a, none) :: zipPad as' []
  | a :: as', b :: bs => (some a, some b) :: zipPad as' bs

/-- `':'.join([levelStr(order) for order in (bid, offer) if order])`:
the present members of one positional pair, joined with `:`. -/
def pairStr : Option (ℚ × ℚ) × Option (ℚ × ℚ) → String
  | (some b, some o) => levelStr b ++ ":" ++ levelStr o
  | (some b, none) => levelStr b
  | (none, some o) => levelStr o
  | (none, none) => ""

/-- The checksum string built by `_handle_orderbook_message` from a
snapshot: first 100 levels of each side, zipped with padding, pairs
rendered and joined with `:`. -/
def bookChecksumString (b : Book) : String :=
  joinColon ((zipPad (b.bids.take 100) (b.asks.take 100)).map pairStr)

/-- `int(zlib.crc32(':'.join(checksum_data).encode()))` over a snapshot. -/
def bookChecksum (b : Book) : Nat :=
  crc32OfString (bookChecksumString b)

/-- The first part of `_handle_orderbook_message`: the reset on a
`partial` action and the merge of both sides' deltas into the market's
book (the two sides are independent, so the arbitrary iteration order of
the Python set `{'bids', 'asks'}` does not matter). -/
def applyDeltas (st : WsState) (market action : String)
    (bids asks : List (ℚ × ℚ)) : WsState :=
  let st1 := if action = "partial" then resetOrderbook st else st
  let res := agetd Book.empty st1.orderbooks market
  let book := { res.1 with bids := dictUpdate res.1.bids bids
                           asks := dictUpdate res.1.asks asks }
  { st1 with orderbooks := aset market book res.2 }

/-- `_handle_orderbook_message`: merge the deltas, recompute the checksum
from the `get_orderbook` snapshot (this call itself may lazily subscribe
and create the book entry), and on mismatch reset every order book and
unsubscribe this market's orderbook channel. -/
def handleOrderbookMessage (st : WsState) (market action : String)
    (bids asks : List (ℚ × ℚ)) (checksum : Nat) : WsState :=
  let st1 := applyDeltas st market action bids asks
  let st2 := (getOrderbook st1 market).1
  if bookChecksum (getOrderbook st1 market).2 ≠ checksum then
    unsubscribeOp (resetOrderbook st2) ⟨"orderbook", some market⟩
  else st2

/-- Append to a `deque(maxlen=10000)`: evict the oldest at capacity. -/
def dequeAppend (l : List MsgData) (d : MsgData) : List MsgData :=
  if l.length = 10000 then l.tail ++ [d] else l ++ [d]

/-- `_handle_trades_message`. -/
def handleTradesMessage (st : WsState) (market : String) (d : MsgData) : WsState :=
  let res := agetd ([] : List MsgData) st.trades market
  { st with trades := aset market (dequeAppend res.1 d) res.2 }

/-- `_handle_ticker_message`. -/
def handleTickerMessage (st : WsState) (market : String) (d : MsgData) : WsState :=
  { st with tickers := aset market d st.tickers }

/-- `_handle_fills_message`. -/
def handleFillsMessage (st : WsState) (d : MsgData) : WsState :=
  { st with fills := dequeAppend st.fills d }

/-- `_handle_orders_message`: keyed by `data['id']`. -/
def handleOrdersMessage (st : WsState) (d : MsgData) : Except String WsState :=
  match d with
  | .record (some i) _ => .ok { st with orders := aset i d st.orders }
  | _ => .error "KeyError: id"

/-- The channel dispatch chain of `_on_message` (after the type checks):
reads `message['channel']` and routes; an unknown channel falls through
every `elif` and the frame is dropped. -/
def handleChannel (st : WsState) (m : Message) : Except String WsState :=
  match m.channel? with
  | none => .error "KeyError: channel"
  | some ch =>
    if ch = "orderbook" then
      match m.market?, m.data? with
      | some market, some (.book action bids asks checksum) =>
        .ok (handleOrderbookMessage st market action bids asks checksum)
      | some _, some _ => .error "KeyError: action"
      | some _, none => .error "KeyError: data"
      | none, _ => .error "KeyError: market"
    else if ch = "trades" then
      match m.market?, m.data? with
      | some market, some d => .ok (handleTradesMessage st market d)
      | some _, none => .error "KeyError: data"
      | none, _ => .error "KeyError: market"
    else if ch = "ticker" then
      match m.market?, m.data? with
      | some market, some d => .ok (handleTickerMessage st market d)
      | some _, none => .error "KeyError: data"
      | none, _ => .error "KeyError: market"
    else if ch = "fills" then
      match m.data? with
      | some d => .ok (handleFillsMessage st d)
      | none => .error "KeyError: data"
    else if ch = "orders" then
      match m.data? with
      | some d => handleOrdersMessage st d
      | none => .error "KeyError: data"
    else .ok st

/-- `_on_message`: acknowledgements are swallowed; `info` with code 20001
triggers `reconnect` and returns; `info` with any other code falls
through to the channel dispatch (whose `message['channel']` read raises
`KeyError` when the key is absent); an `error` frame raises. -/
def onMessage (st : WsState) (m : Message) : Except String WsState :=
  match m.type? with
  | none => .error "KeyError: type"
  | some t =>
    if t = "subscribed" ∨ t = "unsubscribed" then .ok st
    else if t = "info" then
      match m.code? with
      | none => .error "KeyError: code"
      | some c =>
        if c = 20001 then .ok (reconnect st)
        else handleChannel st m
    else if t = "error" then .error "Exception: error frame"
    else handleChannel st m

/-- Feed a list of inbound frames through `_on_message`, stopping at the
first raised exception. -/
def processAll (st : WsState) : List Message → Except String WsState
  | [] => .ok st
  | m :: ms =>
    match onMessage st m with
    | .ok st' => processAll st' ms
    | .error e => .error e

/-- The stored (raw, unpruned, unsorted) book of a market: the dict entry,
or the defaultdict's fresh value when the market has never been touched. -/
def rawBook (st : WsState) (market : String) : Book :=
  (alookup market st.orderbooks).getD Book.empty

/-- The price levels of a side per the spec's data model (§3): an entry
whose size is exactly zero means "level removed" and is not a level. -/
def specLevels (side : Side) : Side :=
  side.filter fun p => decide (p.2 ≠ 0)

/-- Pad a list with absent entries up to length `n` (the spec's "shorter
side padded with absent entries"). -/
def padTo {α : Type} (n : Nat) (l : List α) : List (Option α) :=
  l.map some ++ List.replicate (n - l.length) none

/-- The present parts of one positional level pair, each rendered as
`price:size`, joined with `:` (the spec's wording). -/
def specPairStr (x y : Option (ℚ × ℚ)) : String :=
  joinColon (([x, y].filterMap id).map levelStr)

/-- The checksum algorithm as the spec's words describe it (§4.1): for
each side take up to the top 100 levels in its sort order (bids
descending, asks ascending), pair them positionally with the shorter side
padded with absent entries, render each present level as `price:size` in
canonical decimal text form, join each pair's present parts with `:`,
join all pairs with `:`, and take the CRC-32 of the resulting byte
string. -/
def checksumSpec (bids asks : Side) : Nat :=
  let b := ((specLevels bids).insertionSort bidLE).take 100
  let a := ((specLevels asks).insertionSort askLE).take 100
  let n := max b.length a.length
  crc32OfString (joinColon (((padTo n b).zip (padTo n a)).map fun p => specPairStr p.1 p.2))

/-- An inbound frame addressed to market `market`'s orderbook channel. -/
def isOrderbookFrameFor (market : String) (m : Message) : Prop :=
  m.channel? = some "orderbook" ∧ m.market? = some market

/-- The market's stored book is absent or empty (an invalidated replica). -/
def bookEmptyFor (st : WsState) (market : String) : Prop :=
  alookup market st.orderbooks = none ∨ alookup market st.orderbooks = some Book.empty

/-- A side map has no duplicate prices (true of every Python dict). -/
def sideKeysNodup (s : Side) : Prop :=
  (s.map Prod.fst).Nodup

/-- Both sides of a book have no duplicate prices. -/
def bookOk (b : Book) : Prop :=
  sideKeysNodup b.bids ∧ sideKeysNodup b.asks

/-- Every stored book has duplicate-free sides. -/
def stateOk (st : WsState) : Prop :=
  ∀ p ∈ st.orderbooks, bookOk p.2

/-- The states reachable from a fresh client by query calls, inbound
frames and reconnects. -/
inductive Reachable : WsState → Prop where
  | init : Reachable initState
  | queryOrderbook (st : WsState) (market : String) :
      Reachable st → Reachable (getOrderbook st market).1
  | queryTrades (st : WsState) (market : String) :
      Reachable st → Reachable (getTrades st market).1
  | message (st st' : WsState) (m : Message) :
      Reachable st → onMessage st m = .ok st' → Reachable st'
  | reconn (st : WsState) :
      Reachable st → Reachable (reconnect st)

/-- An orderbook frame, as the feed delivers it. -/
def mkBookFrame (ty market action : String) (bids asks : List (ℚ × ℚ))
    (checksum : Nat) : Message :=
  { type? := some ty, code? := none, channel? := some "orderbook"
    market? := some market, data? := some (.book action bids asks checksum) }

/-- A concrete valid `partial` frame: two bids, one ask, matching
checksum. -/
def exFrame : Message :=
  mkBookFrame "partial" "BTC" "partial" [(100, 1), (99, 2)] [(101, 1)]
    (bookChecksum ⟨[(100, 1), (99, 2)], [(101, 1)]⟩)

/-- The state after the fresh client processes `exFrame`. -/
def exState : WsState :=
  match onMessage initState exFrame with
  | .ok st => st
  | .error _ => initState

/-! ## Association-list lemmas -/

theorem alookup_aset_self {α β : Type} [DecidableEq α] (k : α) (v : β)
    (l : List (α × β)) : alookup k (aset k v l) = some v := by
  induction l with
  | nil => simp [aset, alookup]
  | cons p l ih =>
    obtain ⟨a, b⟩ := p
    by_cases h : a = k
    · subst h; simp [aset, alookup]
    · simp [aset, alookup, h, ih]

theorem alookup_aset_ne {α β : Type} [DecidableEq α] {k' k : α} (v : β)
    (l : List (α × β)) (h : k' ≠ k) :
    alookup k' (aset k v l) = alookup k' l := by
  induction l with
  | nil => simp [aset, alookup, Ne.symm h]
  | cons p l ih =>
    obtain ⟨a, b⟩ := p
    by_cases ha : a = k
    · subst ha
      simp [aset, alookup, Ne.symm h]
    · by_cases ha' : a = k'
      · subst ha'; simp [aset, alookup, ha]
      · simp [aset, alookup, ha, ha', ih]

theorem alookup_append_single_self {α β : Type} [DecidableEq α] {k : α} (d : β)
    {l : List (α × β)} (h : alookup k l = none) :
    alookup k (l ++ [(k, d)]) = some d := by
  induction l with
  | nil => simp [alookup]
  | cons p l ih =>
    obtain ⟨a, b⟩ := p
    by_cases ha : a = k
    · simp [alookup, ha] at h
    · simp only [alookup, ha, if_false, List.cons_append] at h ⊢
      simp [alookup, ha] at h ⊢
      exact ih h

theorem alookup_append_single_ne {α β : Type} [DecidableEq α] {k' k : α} (d : β)
    (l : List (α × β)) (h : k' ≠ k) :
    alookup k' (l ++ [(k, d)]) = alookup k' l := by
  induction l with
  | nil => simp [alookup, Ne.symm h]
  | cons p l ih =>
    obtain ⟨a, b⟩ := p
    by_cases ha : a = k'
    · simp [alookup, ha]
    · simp [alookup, ha, ih]

theorem agetd_fst {α β : Type} [DecidableEq α] (d : β) (m : List (α × β)) (k : α) :
    (agetd d m k).1 = (alookup k m).getD d := by
  cases h : alookup k m <;> simp [agetd, h]

theorem alookup_agetd_self {α β : Type} [DecidableEq α] (d : β) (m : List (α × β)) (k : α) :
    alookup k (agetd d m k).2 = some ((alookup k m).getD d) := by
  cases h : alookup k m with
  | none => simp [agetd, h, alookup_append_single_self d h]
  | some v => simp [agetd, h]

theorem alookup_agetd_ne {α β : Type} [DecidableEq α] {k' k : α} (d : β)
    (m : List (α × β)) (h : k' ≠ k) :
    alookup k' (agetd d m k).2 = alookup k' m := by
  cases hm : alookup k m with
  | none => simp [agetd, hm, alookup_append_single_ne d m h]
  | some v => simp [agetd, hm]

theorem alookup_mem {α β : Type} [DecidableEq α] {k : α} {v : β}
    {l : List (α × β)} (h : alookup k l = some v) : (k, v) ∈ l := by
  induction l with
  | nil => simp [alookup] at h
  | cons p l ih =>
    obtain ⟨a, b⟩ := p
    by_cases ha : a = k
    · subst ha
      simp [alookup] at h
      simp [h]
    · simp [alookup, ha] at h
      simp [ih h]

/-! ## State-field preservation lemmas -/

@[simp] theorem ensureSubscribed_orderbooks (st : WsState) (s : Subscription) :
    (ensureSubscribed st s).orderbooks = st.orderbooks := by
  unfold ensureSubscribed; split <;> rfl

@[simp] theorem ensureSubscribed_trades (st : WsState) (s : Subscription) :
    (ensureSubscribed st s).trades = st.trades := by
  unfold ensureSubscribed; split <;> rfl

theorem getOrderbook_fst_orderbooks (st : WsState) (market : String) :
    (getOrderbook st market).1.orderbooks = (agetd Book.empty st.orderbooks market).2 := by
  simp [getOrderbook]

theorem getOrderbook_snd (st : WsState) (market : String) :
    (getOrderbook st market).2 =
      ⟨snapshotBids (rawBook st market).bids, snapshotAsks (rawBook st market).asks⟩ := by
  simp [getOrderbook, rawBook, agetd_fst]

theorem agetd_snd_of_some {α β : Type} [DecidableEq α] {k : α} {v : β}
    {m : List (α × β)} (d : β) (h : alookup k m = some v) :
    (agetd d m k).2 = m := by
  simp [agetd, h]

/-- C1: the claim fails on the code.  Subscribing to the `BTC` orderbook
puts one entry in the registry; `reconnect` then empties the registry and
sends nothing: the post-reconnect subscription set is not the
pre-disconnect set, and no subscribe message is re-sent. -/
theorem C1_counterexample :
    ((getOrderbook initState "BTC").1.subscriptions
        = [⟨"orderbook", some "BTC"⟩]) ∧
      (reconnect (getOrderbook initState "BTC").1).subscriptions = [] ∧
      (reconnect (getOrderbook initState "BTC").1).sent
        = (getOrderbook initState "BTC").1.sent := by
  decide

/-- C1 (amended): `reconnect` first runs `_reset_data`, which clears the
subscription registry; the spec-modelled replay of `super().reconnect()`
then iterates the already-empty registry, so after every reconnect the
subscription set is empty and no subscribe wire message is re-sent. -/
theorem C1_reconnect_clears_registry (st : WsState) :
    (reconnect st).subscriptions = [] ∧ (reconnect st).sent = st.sent := by
  simp [reconnect, resetData, superReconnect]

/-- C10: querying `get_orderbook` for a market with no stored book returns
the empty snapshot rather than failing, and the query itself creates the
market's empty book entry. -/
theorem C10_unqueried_market_empty_snapshot (st : WsState) (market : String)
    (h : alookup market st.orderbooks = none) :
    (getOrderbook st market).2 = Book.empty ∧
      alookup market (getOrderbook st market).1.orderbooks = some Book.empty := by
  constructor
  · rw [getOrderbook_snd]
    simp [rawBook, h, Book.empty, snapshotBids, snapshotAsks, pruneSide]
  · rw [getOrderbook_fst_orderbooks]
    simpa [h] using alookup_agetd_self Book.empty st.orderbooks market

/-- C10 witness: the fresh client has no book for `BTC`; querying it
returns the empty snapshot and creates the entry. -/
theorem C10_witness :
    alookup "BTC" initState.orderbooks = none ∧
      ((getOrderbook initState "BTC").2 = Book.empty ∧
        alookup "BTC" (getOrderbook initState "BTC").1.orderbooks = some Book.empty) :=
  ⟨by decide, C10_unqueried_market_empty_snapshot initState "BTC" (by decide)⟩

/-- C8: when the trades subscription for a market is not yet present,
calling `get_trades` twice sends the subscribe wire message exactly once,
leaves exactly one matching registry entry, and the second call is a
no-op on the state. -/
theorem C8_idempotent_subscribe (st : WsState) (market : String)
    (h : (⟨"trades", some market⟩ : Subscription) ∉ st.subscriptions) :
    ((getTrades st market).1.sent
        = st.sent ++ [WireMsg.subscribe ⟨"trades", some market⟩]) ∧
      (getTrades (getTrades st market).1 market).1 = (getTrades st market).1 ∧
      ((getTrades (getTrades st market).1 market).1.subscriptions.count
          (⟨"trades", some market⟩ : Subscription) = 1) := by
  have hens : ensureSubscribed st ⟨"trades", some market⟩
      = subscribeOp st ⟨"trades", some market⟩ := by
    simp [ensureSubscribed, h]
  have hsent : (getTrades st market).1.sent
      = st.sent ++ [WireMsg.subscribe ⟨"trades", some market⟩] := by
    simp [getTrades, hens, subscribeOp]
  have hsubs : (getTrades st market).1.subscriptions
      = st.subscriptions ++ [⟨"trades", some market⟩] := by
    simp [getTrades, hens, subscribeOp]
  have htr : (getTrades st market).1.trades = (agetd [] st.trades market).2 := by
    simp [getTrades]
  have hmem : (⟨"trades", some market⟩ : Subscription)
      ∈ (getTrades st market).1.subscriptions := by
    rw [hsubs]; simp
  have hens2 : ensureSubscribed (getTrades st market).1 ⟨"trades", some market⟩
      = (getTrades st market).1 := by
    simp [ensureSubscribed, hmem]
  have hlk : alookup market (getTrades st market).1.trades
      = some ((alookup market st.trades).getD []) := by
    rw [htr]; exact alookup_agetd_self [] st.trades market
  have hfix : (getTrades (getTrades st market).1 market).1 = (getTrades st market).1 := by
    show ({ ensureSubscribed (getTrades st market).1 ⟨"trades", some market⟩ with
        trades := (agetd [] (ensureSubscribed (getTrades st market).1
          ⟨"trades", some market⟩).trades market).2 } : WsState) = (getTrades st market).1
    rw [hens2, agetd_snd_of_some [] hlk]
  refine ⟨hsent, hfix, ?_⟩
  rw [hfix, hsubs]
  have hz : st.subscriptions.count (⟨"trades", some market⟩ : Subscription) = 0 :=
    List.count_eq_zero.mpr h
  simp [List.count_append, hz]

/-- C8 witness: concrete double `get_trades` call on the fresh client. -/
theorem C8_witness :
    (⟨"trades", some "BTC"⟩ : Subscription) ∉ initState.subscriptions ∧
      ((getTrades initState "BTC").1.sent
          = initState.sent ++ [WireMsg.subscribe ⟨"trades", some "BTC"⟩]) ∧
      (getTrades (getTrades initState "BTC").1 "BTC").1 = (getTrades initState "BTC").1 ∧
      ((getTrades (getTrades initState "BTC").1 "BTC").1.subscriptions.count
          (⟨"trades", some "BTC"⟩ : Subscription) = 1) :=
  ⟨by decide, C8_idempotent_subscribe initState "BTC" (by decide)⟩

set_option maxRecDepth 400000

/-- C3: the claim fails on the code.  Applying an `update` frame carrying
`(100, 0)` (with the matching checksum of the then-empty snapshot) leaves
the pair `(100, 0)` stored in the bids side map: zero-size entries are
persisted in the side map, not pruned on update. -/
theorem C3_counterexample :
    ((100 : ℚ), (0 : ℚ)) ∈
      (rawBook (handleOrderbookMessage initState "A" "update" [(100, 0)] []
        (crc32OfString "")) "A").bids := by
  decide

/-- C3 (amended): zero-size entries are stored in the internal side map
rather than pruned on update; pruning happens at read time — a snapshot
returned by `get_orderbook` never contains a zero-size level. -/
theorem C3_snapshot_never_zero (st : WsState) (market : String) :
    (∀ p ∈ (getOrderbook st market).2.bids, p.2 ≠ 0) ∧
      (∀ p ∈ (getOrderbook st market).2.asks, p.2 ≠ 0) := by
  rw [getOrderbook_snd]
  constructor <;> intro p hp
  · have hm : p ∈ pruneSide (rawBook st market).bids :=
      (List.perm_insertionSort bidLE _).mem_iff.mp (by simpa [snapshotBids] using hp)
    have := (List.mem_filter.mp hm).2
    simpa using this
  · have hm : p ∈ pruneSide (rawBook st market).asks :=
      (List.perm_insertionSort askLE _).mem_iff.mp (by simpa [snapshotAsks] using hp)
    have := (List.mem_filter.mp hm).2
    simpa using this

/-- C3 witness: a stored book holding both a zero-size and a live level;
the live level appears in the snapshot and its size is nonzero. -/
theorem C3_witness :
    ((99 : ℚ), (2 : ℚ)) ∈
        (getOrderbook (handleOrderbookMessage initState "A" "update"
          [(100, 0), (99, 2)] [] (bookChecksum ⟨[(99, 2)], []⟩)) "A").2.bids ∧
      ((99 : ℚ), (2 : ℚ)).2 ≠ 0 :=
  ⟨by decide,
   (C3_snapshot_never_zero (handleOrderbookMessage initState "A" "update"
      [(100, 0), (99, 2)] [] (bookChecksum ⟨[(99, 2)], []⟩)) "A").1 _ (by decide)⟩

/-- C7: from the fresh client, a `partial` frame with bids
`[[100,1],[99,2]]` and asks `[[101,1]]` followed by an `update` frame with
bids `[[100,0]]` (both carrying their matching checksums) yields the bids
snapshot `[[99,2]]`. -/
theorem C7_scenario :
    (processAll initState
        [mkBookFrame "partial" "BTC" "partial" [(100, 1), (99, 2)] [(101, 1)]
          (bookChecksum ⟨[(100, 1), (99, 2)], [(101, 1)]⟩),
         mkBookFrame "update" "BTC" "update" [(100, 0)] []
          (bookChecksum ⟨[(99, 2)], [(101, 1)]⟩)]).map
        (fun s => (getOrderbook s "BTC").2.bids)
      = .ok [(99, 2)] := by
  rfl

/-- C9: the claim fails on the code.  An `info` frame whose code is not
20001 falls through to the channel dispatch; it has no `channel` key, so
`_on_message` raises `KeyError` instead of dropping the frame. -/
theorem C9_counterexample :
    onMessage initState
        { type? := some "info", code? := some 1, channel? := none
          market? := none, data? := none } = .error "KeyError: channel" := by
  rfl

/-- C9 (amended): acknowledgement frames and data frames with an
unrecognized channel tag are dropped with the state unchanged, but a
malformed frame can raise an unhandled exception — in particular an
`info` frame with a code other than 20001 and no `channel` key raises
`KeyError`. -/
theorem C9_unknown_channel_dropped_malformed_raises :
    (∀ (st : WsState) (m : Message) (t : String), m.type? = some t →
        (t = "subscribed" ∨ t = "unsubscribed") → onMessage st m = .ok st) ∧
      (∀ (st : WsState) (m : Message) (t ch : String), m.type? = some t →
        t ≠ "subscribed" → t ≠ "unsubscribed" → t ≠ "info" → t ≠ "error" →
        m.channel? = some ch → ch ≠ "orderbook" → ch ≠ "trades" →
        ch ≠ "ticker" → ch ≠ "fills" → ch ≠ "orders" →
        onMessage st m = .ok st) ∧
      (∀ (st : WsState) (m : Message) (c : Int), m.type? = some "info" →
        m.code? = some c → c ≠ 20001 → m.channel? = none →
        onMessage st m = .error "KeyError: channel") := by
  refine ⟨?_, ?_, ?_⟩
  · intro st m t hty hctl
    rcases hctl with h | h <;> subst h <;> simp [onMessage, hty]
  · intro st m t ch hty h1 h2 h3 h4 hch hc1 hc2 hc3 hc4 hc5
    simp [onMessage, hty, h1, h2, h3, h4, handleChannel, hch, hc1, hc2, hc3, hc4, hc5]
  · intro st m c hty hcode hc hch
    simp [onMessage, hty, hcode, hc, handleChannel, hch]

/-- C9 witness: a `subscribed` acknowledgement and an unknown-channel data
frame are dropped; the malformed `info` frame raises. -/
theorem C9_witness :
    (onMessage initState
        { type? := some "subscribed", code? := none, channel? := none
          market? := none, data? := none } = .ok initState) ∧
      (onMessage initState
        { type? := some "update", code? := none, channel? := some "greeks"
          market? := none, data? := none } = .ok initState) ∧
      (onMessage initState
        { type? := some "info", code? := some 1, channel? := none
          market? := none, data? := none } = .error "KeyError: channel") :=
  ⟨C9_unknown_channel_dropped_malformed_raises.1 initState _ "subscribed" rfl (Or.inl rfl),
   C9_unknown_channel_dropped_malformed_raises.2.1 initState _ "update" "greeks" rfl
     (by decide) (by decide) (by decide) (by decide) rfl
     (by decide) (by decide) (by decide) (by decide) (by decide),
   C9_unknown_channel_dropped_malformed_raises.2.2 initState _ 1 rfl rfl (by decide) rfl⟩

/-- C2: the claim fails on the code.  A valid `partial` frame for market
`A` fills `A`'s book; a later `partial` frame for market `B` then clears
`A`'s book as well — the frame does not leave other markets unchanged. -/
theorem C2_counterexample :
    ((getOrderbook (handleOrderbookMessage initState "A" "partial" [(1, 1)] []
          (bookChecksum ⟨[(1, 1)], []⟩)) "A").2.bids = [(1, 1)]) ∧
      ((getOrderbook (handleOrderbookMessage
            (handleOrderbookMessage initState "A" "partial" [(1, 1)] []
              (bookChecksum ⟨[(1, 1)], []⟩))
            "B" "partial" [(2, 3)] [] (bookChecksum ⟨[(2, 3)], []⟩)) "A").2.bids = []) := by
  decide

/-- C2 (amended): a `partial` frame clears the entire orderbook store (all
markets) before its deltas are applied: the target market's merged book is
exactly the deltas applied to empty sides, and afterwards every other
market has no stored book at all. -/
theorem C2_partial_clears_all_markets (st : WsState) (market m' : String)
    (bids asks : List (ℚ × ℚ)) (checksum : Nat) (h : m' ≠ market) :
    alookup m' (handleOrderbookMessage st market "partial" bids asks checksum).orderbooks
        = none ∧
      alookup market (applyDeltas st market "partial" bids asks).orderbooks
        = some ⟨dictUpdate [] bids, dictUpdate [] asks⟩ := by
  have hd : (applyDeltas st market "partial" bids asks).orderbooks
      = [(market, ⟨dictUpdate [] bids, dictUpdate [] asks⟩)] := by
    simp [applyDeltas, resetOrderbook, agetd, alookup, aset, Book.empty]
  have hmk : alookup market (applyDeltas st market "partial" bids asks).orderbooks
      = some ⟨dictUpdate [] bids, dictUpdate [] asks⟩ := by
    rw [hd]; simp [alookup]
  have hlk : alookup m' (applyDeltas st market "partial" bids asks).orderbooks = none := by
    rw [hd]; simp [alookup, Ne.symm h]
  refine ⟨?_, hmk⟩
  have hst2 : (getOrderbook (applyDeltas st market "partial" bids asks) market).1.orderbooks
      = (applyDeltas st market "partial" bids asks).orderbooks := by
    rw [getOrderbook_fst_orderbooks, agetd_snd_of_some Book.empty hmk]
  simp only [handleOrderbookMessage]
  split
  · simp [unsubscribeOp, resetOrderbook, alookup]
  · rw [hst2, hlk]

/-- C2 witness: concrete instance for markets `A` and `B`. -/
theorem C2_witness :
    ("B" : String) ≠ "A" ∧
      (alookup "B" (handleOrderbookMessage initState "A" "partial" [(1, 1)] []
            0).orderbooks = none ∧
        alookup "A" (applyDeltas initState "A" "partial" [(1, 1)] []).orderbooks
          = some ⟨dictUpdate [] [(1, 1)], dictUpdate [] []⟩) :=
  ⟨by decide, C2_partial_clears_all_markets initState "A" "B" [(1, 1)] [] 0 (by decide)⟩

/-! ## C4: checksum lemmas -/

theorem zip_replicate_none {α : Type} (ys : List α) :
    (List.replicate ys.length (none : Option α)).zip (ys.map some)
      = ys.map fun b => (none, some b) := by
  induction ys with
  | nil => rfl
  | cons y ys ih => simp [List.replicate, ih]

theorem zip_map_some_replicate {α : Type} (xs : List α) :
    (xs.map some).zip (List.replicate xs.length (none : Option α))
      = xs.map fun a => (some a, none) := by
  induction xs with
  | nil => rfl
  | cons x xs ih => simp [List.replicate, ih]

theorem zipPad_eq_zip_padTo {α : Type} (xs ys : List α) :
    zipPad xs ys
      = (padTo (max xs.length ys.length) xs).zip (padTo (max xs.length ys.length) ys) := by
  induction xs generalizing ys with
  | nil =>
    simp [zipPad, padTo, zip_replicate_none]
  | cons x xs ih =>
    cases ys with
    | nil =>
      show (some x, none) :: zipPad xs [] = _
      rw [ih []]
      have h0 : max (x :: xs).length ([] : List α).length = xs.length + 1 := by simp
      rw [h0]
      have hx : padTo (xs.length + 1) (x :: xs) = some x :: padTo xs.length xs := by
        simp [padTo]
      have hy : padTo (xs.length + 1) ([] : List α)
          = none :: padTo xs.length ([] : List α) := by
        simp [padTo, List.replicate_succ]
      rw [hx, hy]
      have h1 : max xs.length ([] : List α).length = xs.length := by simp
      rw [h1]
      rfl
    | cons y ys =>
      have hm : max (x :: xs).length (y :: ys).length
          = max xs.length ys.length + 1 := by
        simp [Nat.succ_max_succ]
      show (some x, some y) :: zipPad xs ys = _
      rw [ih ys, hm]
      have hx : padTo (max xs.length ys.length + 1) (x :: xs)
          = some x :: padTo (max xs.length ys.length) xs := by
        simp [padTo]
      have hy : padTo (max xs.length ys.length + 1) (y :: ys)
          = some y :: padTo (max xs.length ys.length) ys := by
        simp [padTo]
      rw [hx, hy]
      rfl

theorem specPairStr_eq_pairStr (x y : Option (ℚ × ℚ)) :
    specPairStr x y = pairStr (x, y) := by
  cases x <;> cases y <;> rfl

theorem crc32Step_lt (c : Nat) (h : c < 2 ^ 32) : crc32Step c < 2 ^ 32 := by
  unfold crc32Step
  split
  · exact Nat.xor_lt_two_pow (by omega) (by norm_num)
  · omega

theorem crc32Step_iterate_lt (n c : Nat) (h : c < 2 ^ 32) :
    crc32Step^[n] c < 2 ^ 32 := by
  induction n generalizing c with
  | zero => simpa using h
  | succ n ih =>
    rw [Function.iterate_succ_apply]
    exact ih _ (crc32Step_lt c h)

theorem crc32Byte_lt (c b : Nat) (hc : c < 2 ^ 32) (hb : b < 2 ^ 32) :
    crc32Byte c b < 2 ^ 32 :=
  crc32Step_iterate_lt 8 _ (Nat.xor_lt_two_pow hc hb)

theorem crc32_foldl_lt (bytes : List Nat) (c : Nat) (hc : c < 2 ^ 32)
    (h : ∀ b ∈ bytes, b < 2 ^ 32) :
    bytes.foldl crc32Byte c < 2 ^ 32 := by
  induction bytes generalizing c with
  | nil => simpa using hc
  | cons b bytes ih =>
    rw [List.foldl_cons]
    exact ih _ (crc32Byte_lt c b hc (h b (by simp))) fun x hx => h x (by simp [hx])

theorem crc32_lt (bytes : List Nat) (h : ∀ b ∈ bytes, b < 2 ^ 32) :
    crc32 bytes < 2 ^ 32 :=
  Nat.xor_lt_two_pow (crc32_foldl_lt bytes _ (by norm_num) h) (by norm_num)

theorem crc32OfString_lt (s : String) : crc32OfString s < 2 ^ 32 := by
  refine crc32_lt _ fun b hb => ?_
  simp only [strBytes, List.mem_map] at hb
  obtain ⟨c, _, rfl⟩ := hb
  have h := c.val.val.isLt
  simp [Char.toNat, UInt32.toNat] at h ⊢
  omega

/-- C4: the checksum the handler computes from the merged state — CRC-32
of the colon-joined rendering of the first 100 snapshot levels per side,
positionally zipped with `None` padding — equals the spec's description of
the algorithm (`checksumSpec`), and is an unsigned 32-bit value. -/
theorem C4_checksum_matches_spec (st : WsState) (market : String) :
    bookChecksum (getOrderbook st market).2
        = checksumSpec (rawBook st market).bids (rawBook st market).asks ∧
      bookChecksum (getOrderbook st market).2 < 2 ^ 32 := by
  constructor
  · rw [getOrderbook_snd]
    have hfun : (fun p : Option (ℚ × ℚ) × Option (ℚ × ℚ) => specPairStr p.1 p.2)
        = pairStr := by
      funext p
      rw [specPairStr_eq_pairStr]
    simp only [bookChecksum, bookChecksumString, checksumSpec, hfun,
      ← zipPad_eq_zip_padTo]
    rfl
  · exact crc32OfString_lt _

/-! ## C6: duplicate-free keys and sortedness -/

theorem keys_aset {α β : Type} [DecidableEq α] (k : α) (v : β) (l : List (α × β)) :
    (aset k v l).map Prod.fst
      = if k ∈ l.map Prod.fst then l.map Prod.fst else l.map Prod.fst ++ [k] := by
  induction l with
  | nil => simp [aset]
  | cons p l ih =>
    obtain ⟨a, b⟩ := p
    by_cases ha : a = k
    · subst ha; simp [aset]
    · simp only [aset, if_neg ha, List.map_cons]
      rw [ih]
      by_cases hk : k ∈ l.map Prod.fst
      · simp [hk, ha, Ne.symm ha]
      · simp [hk, ha, Ne.symm ha]

theorem keys_nodup_aset {α β : Type} [DecidableEq α] {k : α} {v : β}
    {l : List (α × β)} (h : (l.map Prod.fst).Nodup) :
    ((aset k v l).map Prod.fst).Nodup := by
  rw [keys_aset]
  split
  · exact h
  · next hk => simp [List.nodup_append, h, hk]

theorem mem_aset_elim {α β : Type} [DecidableEq α] {k : α} {v : β}
    {p : α × β} {l : List (α × β)} :
    p ∈ aset k v l → p = (k, v) ∨ p ∈ l := by
  induction l with
  | nil => intro h; simpa [aset] using h
  | cons q l ih =>
    obtain ⟨a, b⟩ := q
    intro h
    by_cases ha : a = k
    · subst ha
      simp [aset] at h ⊢
      tauto
    · simp [aset, ha] at h ⊢
      rcases h with h | h
      · simp [h]
      · rcases ih h with h' | h'
        · simp [h']
        · simp [h']

theorem sideKeysNodup_dictUpdate {s : Side} (delta : List (ℚ × ℚ))
    (h : sideKeysNodup s) : sideKeysNodup (dictUpdate s delta) := by
  induction delta generalizing s with
  | nil => simpa [dictUpdate] using h
  | cons p delta ih =>
    rw [dictUpdate, List.foldl_cons]
    exact ih (keys_nodup_aset h)

theorem bookOk_empty : bookOk Book.empty := by
  constructor <;> simp [sideKeysNodup, Book.empty]

theorem stateOk_congr {st st' : WsState} (he : st'.orderbooks = st.orderbooks)
    (h : stateOk st) : stateOk st' := fun p hp => h p (he ▸ hp)

theorem okBooks_agetd {l : List (String × Book)} (market : String)
    (h : ∀ p ∈ l, bookOk p.2) :
    ∀ p ∈ (agetd Book.empty l market).2, bookOk p.2 := by
  intro p hp
  cases hm : alookup market l with
  | some v =>
    rw [agetd, hm] at hp
    exact h p hp
  | none =>
    rw [agetd, hm] at hp
    simp only [List.mem_append, List.mem_singleton] at hp
    rcases hp with hp | hp
    · exact h p hp
    · subst hp; exact bookOk_empty

theorem bookOk_agetd_fst {l : List (String × Book)} (market : String)
    (h : ∀ p ∈ l, bookOk p.2) : bookOk (agetd Book.empty l market).1 := by
  rw [agetd_fst]
  cases hm : alookup market l with
  | some v => exact h _ (alookup_mem hm)
  | none => exact bookOk_empty

theorem stateOk_handleOrderbook {st : WsState} (market action : String)
    (bids asks : List (ℚ × ℚ)) (checksum : Nat) (h : stateOk st) :
    stateOk (handleOrderbookMessage st market action bids asks checksum) := by
  have hbase : ∀ p ∈ (if action = "partial" then resetOrderbook st else st).orderbooks,
      bookOk p.2 := by
    split
    · simp [resetOrderbook]
    · exact h
  have h1 : stateOk (applyDeltas st market action bids asks) := by
    intro p hp
    simp only [applyDeltas] at hp
    rcases mem_aset_elim hp with hp' | hp'
    · subst hp'
      have hb := bookOk_agetd_fst market hbase
      exact ⟨sideKeysNodup_dictUpdate bids hb.1, sideKeysNodup_dictUpdate asks hb.2⟩
    · exact okBooks_agetd market hbase p hp'
  have h2 : stateOk (getOrderbook (applyDeltas st market action bids asks) market).1 := by
    intro p hp
    rw [getOrderbook_fst_orderbooks] at hp
    exact okBooks_agetd market h1 p hp
  simp only [handleOrderbookMessage]
  split
  · intro p hp
    simp [unsubscribeOp, resetOrderbook] at hp
  · exact h2

theorem handleChannel_ok_cases {st st' : WsState} {m : Message}
    (h : handleChannel st m = .ok st') :
    st' = st ∨
      (∃ mk action bids asks checksum,
        m.channel? = some "orderbook" ∧ m.market? = some mk ∧
        st' = handleOrderbookMessage st mk action bids asks checksum) ∨
      (∃ mk d, st' = handleTradesMessage st mk d) ∨
      (∃ mk d, st' = handleTickerMessage st mk d) ∨
      (∃ d, st' = handleFillsMessage st d) ∨
      (∃ i d, st' = { st with orders := aset i d st.orders }) := by
  unfold handleChannel at h
  split at h
  · exact absurd h (by simp)
  next ch hch =>
    by_cases hc1 : ch = "orderbook"
    · rw [if_pos hc1] at h
      split at h
      all_goals try exact Except.noConfusion h
      rename_i market action bids asks checksum hmk hd
      simp only [Except.ok.injEq] at h
      exact Or.inr (Or.inl ⟨market, action, bids, asks, checksum,
        hc1 ▸ hch, hmk, h.symm⟩)
    · rw [if_neg hc1] at h
      by_cases hc2 : ch = "trades"
      · rw [if_pos hc2] at h
        split at h
        all_goals try exact Except.noConfusion h
        rename_i market d hmk hd
        simp only [Except.ok.injEq] at h
        exact Or.inr (Or.inr (Or.inl ⟨market, d, h.symm⟩))
      · rw [if_neg hc2] at h
        by_cases hc3 : ch = "ticker"
        · rw [if_pos hc3] at h
          split at h
          all_goals try exact Except.noConfusion h
          rename_i market d hmk hd
          simp only [Except.ok.injEq] at h
          exact Or.inr (Or.inr (Or.inr (Or.inl ⟨market, d, h.symm⟩)))
        · rw [if_neg hc3] at h
          by_cases hc4 : ch = "fills"
          · rw [if_pos hc4] at h
            split at h
            all_goals try exact Except.noConfusion h
            rename_i d hd
            simp only [Except.ok.injEq] at h
            exact Or.inr (Or.inr (Or.inr (Or.inr (Or.inl ⟨d, h.symm⟩))))
          · rw [if_neg hc4] at h
            by_cases hc5 : ch = "orders"
            · rw [if_pos hc5] at h
              split at h
              all_goals try exact Except.noConfusion h
              rename_i d hd
              unfold handleOrdersMessage at h
              split at h
              all_goals try exact Except.noConfusion h
              rename_i i p
              simp only [Except.ok.injEq] at h
              exact Or.inr (Or.inr (Or.inr (Or.inr (Or.inr
                ⟨i, MsgData.record (some i) p, h.symm⟩))))
            · rw [if_neg hc5] at h
              simp only [Except.ok.injEq] at h
              exact Or.inl h.symm

theorem onMessage_ok_cases {st st' : WsState} {m : Message}
    (h : onMessage st m = .ok st') :
    st' = st ∨ st' = reconnect st ∨
      (∃ mk action bids asks checksum,
        m.channel? = some "orderbook" ∧ m.market? = some mk ∧
        st' = handleOrderbookMessage st mk action bids asks checksum) ∨
      (∃ mk d, st' = handleTradesMessage st mk d) ∨
      (∃ mk d, st' = handleTickerMessage st mk d) ∨
      (∃ d, st' = handleFillsMessage st d) ∨
      (∃ i d, st' = { st with orders := aset i d st.orders }) := by
  unfold onMessage at h
  split at h
  · exact Except.noConfusion h
  next t hty =>
    by_cases h1 : t = "subscribed" ∨ t = "unsubscribed"
    · rw [if_pos h1] at h
      simp only [Except.ok.injEq] at h
      exact Or.inl h.symm
    · rw [if_neg h1] at h
      by_cases h2 : t = "info"
      · rw [if_pos h2] at h
        split at h
        · exact Except.noConfusion h
        next c hc =>
          by_cases h3 : c = 20001
          · rw [if_pos h3] at h
            simp only [Except.ok.injEq] at h
            exact Or.inr (Or.inl h.symm)
          · rw [if_neg h3] at h
            rcases handleChannel_ok_cases h with h' | h' | h' | h' | h' | h'
            · exact Or.inl h'
            · exact Or.inr (Or.inr (Or.inl h'))
            · exact Or.inr (Or.inr (Or.inr (Or.inl h')))
            · exact Or.inr (Or.inr (Or.inr (Or.inr (Or.inl h'))))
            · exact Or.inr (Or.inr (Or.inr (Or.inr (Or.inr (Or.inl h')))))
            · exact Or.inr (Or.inr (Or.inr (Or.inr (Or.inr (Or.inr h')))))
      · rw [if_neg h2] at h
        by_cases h4 : t = "error"
        · rw [if_pos h4] at h; exact Except.noConfusion h
        · rw [if_neg h4] at h
          rcases handleChannel_ok_cases h with h' | h' | h' | h' | h' | h'
          · exact Or.inl h'
          · exact Or.inr (Or.inr (Or.inl h'))
          · exact Or.inr (Or.inr (Or.inr (Or.inl h')))
          · exact Or.inr (Or.inr (Or.inr (Or.inr (Or.inl h'))))
          · exact Or.inr (Or.inr (Or.inr (Or.inr (Or.inr (Or.inl h')))))
          · exact Or.inr (Or.inr (Or.inr (Or.inr (Or.inr (Or.inr h')))))

@[simp] theorem handleTradesMessage_orderbooks (st : WsState) (mk : String) (d : MsgData) :
    (handleTradesMessage st mk d).orderbooks = st.orderbooks := by
  simp [handleTradesMessage]

@[simp] theorem handleTickerMessage_orderbooks (st : WsState) (mk : String) (d : MsgData) :
    (handleTickerMessage st mk d).orderbooks = st.orderbooks := by
  simp [handleTickerMessage]

@[simp] theorem handleFillsMessage_orderbooks (st : WsState) (d : MsgData) :
    (handleFillsMessage st d).orderbooks = st.orderbooks := by
  simp [handleFillsMessage]

@[simp] theorem reconnect_orderbooks (st : WsState) :
    (reconnect st).orderbooks = [] := by
  simp [reconnect, superReconnect, resetData]

@[simp] theorem getTrades_orderbooks (st : WsState) (mk : String) :
    (getTrades st mk).1.orderbooks = st.orderbooks := by
  simp [getTrades]

theorem stateOk_onMessage {st st' : WsState} {m : Message}
    (h : stateOk st) (hm : onMessage st m = .ok st') : stateOk st' := by
  rcases onMessage_ok_cases hm with rfl | rfl | ⟨mk, a, b, c, d, _, _, rfl⟩
    | ⟨mk, d, rfl⟩ | ⟨mk, d, rfl⟩ | ⟨d, rfl⟩ | ⟨i, d, rfl⟩
  · exact h
  · intro p hp; simp [reconnect, superReconnect, resetData] at hp
  · exact stateOk_handleOrderbook mk a b c d h
  · exact stateOk_congr (by simp) h
  · exact stateOk_congr (by simp) h
  · exact stateOk_congr (by simp) h
  · exact stateOk_congr rfl h

theorem reachable_stateOk {st : WsState} (h : Reachable st) : stateOk st := by
  induction h with
  | init => intro p hp; simp [initState] at hp
  | queryOrderbook st market _ ih =>
    intro p hp
    rw [getOrderbook_fst_orderbooks] at hp
    exact okBooks_agetd market ih p hp
  | queryTrades st market _ ih => exact stateOk_congr (by simp) ih
  | message st st' m _ hmsg ih => exact stateOk_onMessage ih hmsg
  | reconn st _ ih => intro p hp; simp [reconnect, superReconnect, resetData] at hp

theorem snapshotBids_strict {s : Side} (h : sideKeysNodup s) :
    (snapshotBids s).Pairwise fun a b => b.1 < a.1 := by
  have hs : (snapshotBids s).Pairwise bidLE := List.sorted_insertionSort bidLE _
  have hperm : List.Perm (snapshotBids s) (pruneSide s) := List.perm_insertionSort bidLE _
  have h1 : ((pruneSide s).map Prod.fst).Nodup :=
    ((List.filter_sublist s).map Prod.fst).nodup h
  have hnd : ((snapshotBids s).map Prod.fst).Nodup :=
    ((hperm.map Prod.fst).nodup_iff).mpr h1
  have hne : (snapshotBids s).Pairwise fun a b => a.1 ≠ b.1 := List.pairwise_map.mp hnd
  exact (hs.and hne).imp fun hab => lt_of_le_of_ne hab.1 (Ne.symm hab.2)

theorem snapshotAsks_strict {s : Side} (h : sideKeysNodup s) :
    (snapshotAsks s).Pairwise fun a b => a.1 < b.1 := by
  have hs : (snapshotAsks s).Pairwise askLE := List.sorted_insertionSort askLE _
  have hperm : List.Perm (snapshotAsks s) (pruneSide s) := List.perm_insertionSort askLE _
  have h1 : ((pruneSide s).map Prod.fst).Nodup :=
    ((List.filter_sublist s).map Prod.fst).nodup h
  have hnd : ((snapshotAsks s).map Prod.fst).Nodup :=
    ((hperm.map Prod.fst).nodup_iff).mpr h1
  have hne : (snapshotAsks s).Pairwise fun a b => a.1 ≠ b.1 := List.pairwise_map.mp hnd
  exact (hs.and hne).imp fun hab => lt_of_le_of_ne hab.1 hab.2

theorem bookOk_rawBook {st : WsState} (market : String) (h : stateOk st) :
    bookOk (rawBook st market) := by
  unfold rawBook
  cases hm : alookup market st.orderbooks with
  | some b => exact h _ (alookup_mem hm)
  | none => exact bookOk_empty

/-- C6: for every reachable client state, the snapshot returned by
`get_orderbook` has bids strictly descending and asks strictly ascending
in price — for all pairs, hence in particular for adjacent ones. -/
theorem C6_snapshot_strictly_sorted (st : WsState) (market : String)
    (h : Reachable st) :
    ((getOrderbook st market).2.bids.Pairwise fun a b => b.1 < a.1) ∧
      ((getOrderbook st market).2.asks.Pairwise fun a b => a.1 < b.1) := by
  have hok := reachable_stateOk h
  have hb := bookOk_rawBook market hok
  rw [getOrderbook_snd]
  exact ⟨snapshotBids_strict hb.1, snapshotAsks_strict hb.2⟩

/-- C6 witness: the state reached by processing one valid `partial` frame
is reachable, and its two-level bids snapshot is strictly descending. -/
theorem C6_witness :
    Reachable exState ∧
      ((getOrderbook exState "BTC").2.bids.Pairwise fun a b => b.1 < a.1) ∧
      ((getOrderbook exState "BTC").2.asks.Pairwise fun a b => a.1 < b.1) :=
  have hr : Reachable exState :=
    Reachable.message initState exState exFrame Reachable.init (by rfl)
  ⟨hr, C6_snapshot_strictly_sorted exState "BTC" hr⟩

/-! ## C5: desync recovery -/

theorem applyDeltas_sent (st : WsState) (mk action : String)
    (bids asks : List (ℚ × ℚ)) :
    (applyDeltas st mk action bids asks).sent = st.sent := by
  simp only [applyDeltas]
  split <;> rfl

theorem applyDeltas_subscriptions (st : WsState) (mk action : String)
    (bids asks : List (ℚ × ℚ)) :
    (applyDeltas st mk action bids asks).subscriptions = st.subscriptions := by
  simp only [applyDeltas]
  split <;> rfl

@[simp] theorem getOrderbook_fst_sent (st : WsState) (market : String) :
    (getOrderbook st market).1.sent
      = (ensureSubscribed st ⟨"orderbook", some market⟩).sent := by
  simp [getOrderbook]

@[simp] theorem getOrderbook_fst_subscriptions (st : WsState) (market : String) :
    (getOrderbook st market).1.subscriptions
      = (ensureSubscribed st ⟨"orderbook", some market⟩).subscriptions := by
  simp [getOrderbook]

theorem bookEmptyFor_snapshot {st : WsState} {market : String}
    (h : bookEmptyFor st market) : (getOrderbook st market).2 = Book.empty := by
  rw [getOrderbook_snd]
  rcases h with h | h <;>
    simp [rawBook, h, Book.empty, snapshotBids, snapshotAsks, pruneSide]

theorem alookup_applyDeltas_ne {market mk : String} (hne : market ≠ mk)
    (st : WsState) (action : String) (bids asks : List (ℚ × ℚ)) :
    alookup market (applyDeltas st mk action bids asks).orderbooks
      = alookup market (if action = "partial" then resetOrderbook st else st).orderbooks := by
  simp only [applyDeltas]
  rw [alookup_aset_ne _ _ hne, alookup_agetd_ne _ _ hne]

theorem bookEmptyFor_handleOrderbook {st : WsState} {market mk : String}
    (hne : mk ≠ market) (h : bookEmptyFor st market)
    (action : String) (bids asks : List (ℚ × ℚ)) (checksum : Nat) :
    bookEmptyFor (handleOrderbookMessage st mk action bids asks checksum) market := by
  have hne' : market ≠ mk := Ne.symm hne
  have h1 : bookEmptyFor (applyDeltas st mk action bids asks) market := by
    unfold bookEmptyFor at h ⊢
    rw [alookup_applyDeltas_ne hne']
    split
    · left; rfl
    · exact h
  simp only [handleOrderbookMessage]
  split
  · left
    simp [unsubscribeOp, resetOrderbook, alookup]
  · unfold bookEmptyFor at h1 ⊢
    rw [getOrderbook_fst_orderbooks, alookup_agetd_ne _ _ hne']
    exact h1

theorem bookEmptyFor_onMessage {st st' : WsState} {m : Message} {market : String}
    (h : bookEmptyFor st market) (hno : ¬ isOrderbookFrameFor market m)
    (hm : onMessage st m = .ok st') : bookEmptyFor st' market := by
  rcases onMessage_ok_cases hm with rfl | rfl | ⟨mk, a, b, c, d, hch, hmk, rfl⟩
    | ⟨mk, d, rfl⟩ | ⟨mk, d, rfl⟩ | ⟨d, rfl⟩ | ⟨i, d, rfl⟩
  · exact h
  · left
    rw [reconnect_orderbooks]
    rfl
  · have hne : mk ≠ market := fun he => hno ⟨hch, he ▸ hmk⟩
    exact bookEmptyFor_handleOrderbook hne h a b c d
  · unfold bookEmptyFor at h ⊢
    rw [handleTradesMessage_orderbooks]
    exact h
  · unfold bookEmptyFor at h ⊢
    rw [handleTickerMessage_orderbooks]
    exact h
  · unfold bookEmptyFor at h ⊢
    rw [handleFillsMessage_orderbooks]
    exact h
  · exact h

theorem bookEmptyFor_processAll {market : String} (ms : List Message) :
    ∀ st st'', bookEmptyFor st market →
      (∀ m ∈ ms, ¬ isOrderbookFrameFor market m) →
      processAll st ms = .ok st'' → bookEmptyFor st'' market := by
  induction ms with
  | nil =>
    intro st st'' h _ hp
    simp only [processAll, Except.ok.injEq] at hp
    exact hp ▸ h
  | cons m ms ih =>
    intro st st'' h hall hp
    unfold processAll at hp
    split at hp
    next st1 hom =>
      exact ih st1 st''
        (bookEmptyFor_onMessage h (hall m (List.mem_cons_self m ms)) hom)
        (fun m' hm' => hall m' (List.mem_cons_of_mem m hm')) hp
    next e he => exact Except.noConfusion hp

/-- C5: when the server checksum of an applied orderbook frame differs
from the locally recomputed one, the handler resets the orderbook store —
so the market's snapshot is empty and stays empty as long as no further
orderbook frame for that market arrives (the subscription was just
dropped, so none is expected until a resubscription, which starts with a
`partial`) — sends exactly one unsubscribe wire message for that market's
orderbook channel, and removes the entry from the registry. -/
theorem C5_desync_invalidates_and_unsubscribes (st : WsState)
    (market action : String) (bids asks : List (ℚ × ℚ)) (checksum : Nat)
    (hcnt : st.subscriptions.count ⟨"orderbook", some market⟩ ≤ 1)
    (hmis : bookChecksum
        (getOrderbook (applyDeltas st market action bids asks) market).2 ≠ checksum) :
    ((getOrderbook (handleOrderbookMessage st market action bids asks checksum)
        market).2 = Book.empty) ∧
      (∀ ms st'', (∀ m ∈ ms, ¬ isOrderbookFrameFor market m) →
        processAll (handleOrderbookMessage st market action bids asks checksum) ms
          = .ok st'' →
        (getOrderbook st'' market).2 = Book.empty) ∧
      ((handleOrderbookMessage st market action bids asks checksum).sent.count
          (WireMsg.unsubscribe ⟨"orderbook", some market⟩)
        = st.sent.count (WireMsg.unsubscribe ⟨"orderbook", some market⟩) + 1) ∧
      ((⟨"orderbook", some market⟩ : Subscription)
        ∉ (handleOrderbookMessage st market action bids asks checksum).subscriptions) := by
  have heq : handleOrderbookMessage st market action bids asks checksum
      = unsubscribeOp (resetOrderbook
          ((getOrderbook (applyDeltas st market action bids asks) market).1))
          ⟨"orderbook", some market⟩ := by
    simp only [handleOrderbookMessage, if_pos hmis]
  have hemp : bookEmptyFor
      (handleOrderbookMessage st market action bids asks checksum) market := by
    rw [heq]
    left
    simp [unsubscribeOp, resetOrderbook, alookup]
  refine ⟨bookEmptyFor_snapshot hemp, ?_, ?_, ?_⟩
  · intro ms st'' hall hp
    exact bookEmptyFor_snapshot (bookEmptyFor_processAll ms _ st'' hemp hall hp)
  · rw [heq]
    have hs2 : (unsubscribeOp (resetOrderbook
        ((getOrderbook (applyDeltas st market action bids asks) market).1))
        ⟨"orderbook", some market⟩).sent
        = (ensureSubscribed (applyDeltas st market action bids asks)
            ⟨"orderbook", some market⟩).sent
          ++ [WireMsg.unsubscribe ⟨"orderbook", some market⟩] := by
      simp [unsubscribeOp, resetOrderbook]
    rw [hs2, List.count_append]
    have hpre : (ensureSubscribed (applyDeltas st market action bids asks)
        ⟨"orderbook", some market⟩).sent.count
          (WireMsg.unsubscribe ⟨"orderbook", some market⟩)
        = st.sent.count (WireMsg.unsubscribe ⟨"orderbook", some market⟩) := by
      unfold ensureSubscribed
      split
      · rw [applyDeltas_sent]
      · simp [subscribeOp, applyDeltas_sent, List.count_append]
    rw [hpre]
    simp
  · rw [heq]
    have hsubs : (unsubscribeOp (resetOrderbook
        ((getOrderbook (applyDeltas st market action bids asks) market).1))
        ⟨"orderbook", some market⟩).subscriptions
        = ((ensureSubscribed (applyDeltas st market action bids asks)
            ⟨"orderbook", some market⟩).subscriptions).erase
          ⟨"orderbook", some market⟩ := by
      simp [unsubscribeOp, resetOrderbook]
    rw [hsubs]
    have hcount1 : (ensureSubscribed (applyDeltas st market action bids asks)
        ⟨"orderbook", some market⟩).subscriptions.count
          (⟨"orderbook", some market⟩ : Subscription) = 1 := by
      unfold ensureSubscribed
      split
      next hmem =>
        rw [applyDeltas_subscriptions] at hmem ⊢
        exact Nat.le_antisymm hcnt (List.count_pos_iff.mpr hmem)
      next hmem =>
        rw [applyDeltas_subscriptions] at hmem
        simp [subscribeOp, applyDeltas_subscriptions, List.count_append,
          List.count_eq_zero.mpr hmem]
    have hz : (((ensureSubscribed (applyDeltas st market action bids asks)
        ⟨"orderbook", some market⟩).subscriptions).erase
          ⟨"orderbook", some market⟩).count
          (⟨"orderbook", some market⟩ : Subscription) = 0 := by
      rw [List.count_erase_self, hcount1]
    exact List.count_eq_zero.mp hz

/-- C5 witness: a concrete mismatching `update` frame for market `A` on
the fresh client. -/
theorem C5_witness :
    ((getOrderbook (handleOrderbookMessage initState "A" "update" [(100, 1)] [] 0)
        "A").2 = Book.empty) ∧
      (∀ ms st'', (∀ m ∈ ms, ¬ isOrderbookFrameFor "A" m) →
        processAll (handleOrderbookMessage initState "A" "update" [(100, 1)] [] 0) ms
          = .ok st'' →
        (getOrderbook st'' "A").2 = Book.empty) ∧
      ((handleOrderbookMessage initState "A" "update" [(100, 1)] [] 0).sent.count
          (WireMsg.unsubscribe ⟨"orderbook", some "A"⟩)
        = initState.sent.count (WireMsg.unsubscribe ⟨"orderbook", some "A"⟩) + 1) ∧
      ((⟨"orderbook", some "A"⟩ : Subscription)
        ∉ (handleOrderbookMessage initState "A" "update" [(100, 1)] [] 0).subscriptions) :=
  C5_desync_invalidates_and_unsubscribes initState "A" "update" [(100, 1)] [] 0
    (by decide) (by decide)
